import Mathlib

/-!
# Verification of `Logger.go` (package `log`)

A shallow embedding of the structured logger of `src/Logger.go`:

* Go strings are Lean `String`s, read through their character list. Searching a marker
  and slicing after it is done on characters; on well-formed UTF-8 text this selects the
  same text as Go's byte-wise `strings.Index` followed by a byte slice.
* `interface{}` values are the inductive `Value`; a `map[string]interface{}` is a `GoMap`,
  `none` being the nil map and `some entries` an insertion-ordered list of entries with
  pairwise distinct keys, read with `entriesGet` and written with `entriesSet`.
* `LevelType` is Go's `int`, embedded as `Int` (only compared, never computed with).
* The package variable `globalLevelType` is the explicit state `Globals`.
* The call stack read by `runtime.Caller` is a list of frames, innermost first.
* What a call writes to its sink is the list of `Event`s of an `Outcome`; a run-time
  panic (a write to a nil map) is the outcome `Outcome.panicked`.
* The constants of the external package `github.com/ssgo/standard`, the encoder
  `json.Marshal`, `fmt.Sprint`, the clock and the location of `Logger.go` on disk are
  parameters, collected in `Standard` and `Env`.
-/

namespace Log

set_option maxRecDepth 20000

/-! ## Go strings -/

/-- Go's `len(s)`, counted here in characters. -/
def len (s : String) : Int := (s.data.length : Int)

/-- Worker of `strings.Index`: position of the first occurrence of `sub` in `s`, or `-1`. -/
def indexChars (sub : List Char) : List Char → Int
  | [] => if sub.isEmpty then 0 else -1
  | c :: cs =>
    if sub.isPrefixOf (c :: cs) then 0
    else
      let r := indexChars sub cs
      if r = -1 then -1 else r + 1

/-- Go's `strings.Index(s, substr)`: the index of the first instance of `substr` in `s`,
or `-1` if `substr` is not present in `s`. -/
def Index (s substr : String) : Int := indexChars substr.data s.data

/-- Go's `strings.Contains(s, substr)`, which is `Index(s, substr) >= 0`. -/
def Contains (s substr : String) : Bool := decide (Index s substr ≥ 0)

/-- Go's slice expression `s[i:]` (used with `0 ≤ i ≤ len(s)` only). -/
def sliceFrom (s : String) (i : Int) : String := ⟨s.data.drop i.toNat⟩

/-- Go's `strconv.Itoa`. -/
def Itoa (n : Int) : String :=
  if n < 0 then "-" ++ Nat.repr n.natAbs else Nat.repr n.toNat

/-- Go's `strings.Join(elems, sep)`. -/
def Join : List String → String → String
  | [], _ => ""
  | [a], _ => a
  | a :: b :: rest, sep => a ++ sep ++ Join (b :: rest) sep

/-- Go's `filepath.Base` for slash-separated paths: the last element of the path, after
removing trailing slashes; `"."` for the empty path and `"/"` for a path of slashes only. -/
def Base (path : String) : String :=
  if path.data.isEmpty then "."
  else
    let stripped := (path.data.reverse.dropWhile (fun c => c == '/'))
    let last := (stripped.takeWhile (fun c => c != '/')).reverse
    if last.isEmpty then "/" else ⟨last⟩

/-! ## Values and maps -/

/-- A Go `interface{}` value, by dynamic type. -/
inductive Value where
  /-- The nil interface value. -/
  | null : Value
  /-- A `string`. -/
  | str : String → Value
  /-- An `int`. -/
  | int : Int → Value
  /-- A `uint`. -/
  | uint : Nat → Value
  /-- A `float32`, by its bit pattern. -/
  | float32 : Nat → Value
  /-- A `map[string]interface{}`; `none` is the nil map. -/
  | map : Option (List (String × Value)) → Value
  /-- A `map[string]string`; `none` is the nil map. -/
  | strmap : Option (List (String × String)) → Value
  /-- A value of any other dynamic type, by an identifying tag. -/
  | other : Nat → Value

/-- The entries of a non-nil `map[string]interface{}`. -/
abbrev Entries := List (String × Value)

/-- A `map[string]interface{}`: `none` is the nil map. -/
abbrev GoMap := Option Entries

/-- The map read `m[k]` with its presence flag, on the entries of a map. -/
def entriesGet : Entries → String → Option Value
  | [], _ => none
  | (k', v) :: rest, k => if k' = k then some v else entriesGet rest k

/-- The map write `m[k] = v`, on the entries of a non-nil map: an existing key keeps its
place and takes the new value, a new key is added. -/
def entriesSet : Entries → String → Value → Entries
  | [], k, v => [(k, v)]
  | (k', v') :: rest, k, v =>
    if k' = k then (k, v) :: rest else (k', v') :: entriesSet rest k v

/-- The map read `m[k]` with its presence flag; reading a nil map finds nothing. -/
def GoMap.get (m : GoMap) (k : String) : Option Value :=
  match m with
  | none => none
  | some es => entriesGet es k

/-! ## Levels, loggers and the environment -/

/-- Source: `const DEBUG LevelType = 1`. -/
def DEBUG : Int := 1

/-- Source: `const INFO LevelType = 2`. -/
def INFO : Int := 2

/-- Source: `const WARNING LevelType = 3`. -/
def WARNING : Int := 3

/-- Source: `const ERROR LevelType = 4`. -/
def ERROR : Int := 4

/-- Source: `const LogFilePath = "file"`. -/
def LogFilePath : String := "file"

/-- The package-level variables of the source. -/
structure Globals where
  /-- Source: `var globalLevelType LevelType`. -/
  globalLevelType : Int

/-- The state of the package variables at program start: `globalLevelType = INFO`. -/
def initialGlobals : Globals := ⟨INFO⟩

/-- Source: `type Logger struct`. The writer function is known by a handle; `none` is the
nil function, and `truncations = none` is the nil slice. -/
structure Logger where
  /-- The logger's own level; `0` when it was never set. -/
  level : Int
  /-- The truncation markers, in registration order. -/
  truncations : Option (List String)
  /-- The registered sink function. -/
  writer : Option Nat

/-- The constants of the external package `standard` that `Logger.go` uses. -/
structure Standard where
  LogLevelDebug : String
  LogLevelInfo : String
  LogLevelWarning : String
  LogLevelError : String
  LogFieldLevel : String
  LogFieldTime : String
  LogFieldType : String
  LogFieldTraces : String
  LogTypeUndefined : String
  LogTypeRequest : String
  LogFieldRequestApp : String
  LogFieldRequestNode : String
  LogFieldRequestClientIp : String
  LogFieldRequestFromApp : String
  LogFieldRequestFromNode : String
  LogFieldRequestClientId : String
  LogFieldRequestSessionId : String
  LogFieldRequestRequestId : String
  LogFieldRequestHost : String
  LogFieldRequestScheme : String
  LogFieldRequestProto : String
  LogFieldRequestAuthLevel : String
  LogFieldRequestPriority : String
  LogFieldRequestMethod : String
  LogFieldRequestPath : String
  LogFieldRequestRequestHeaders : String
  LogFieldRequestArgs : String
  LogFieldRequestUsedTime : String
  LogFieldRequestStatus : String
  LogFieldRequestResponseHeaders : String
  LogFieldRequestOutLen : String
  LogFieldRequestResult : String

/-- What the logger takes from outside the file. -/
structure Env where
  /-- The constants of package `standard`. -/
  std : Standard
  /-- The path of `Logger.go` that the run-time reports for the logger's own frames. -/
  coreFile : String
  /-- The value of `MakeLogTime(time.Now())` at the call. -/
  now : Value
  /-- The encoder `json.Marshal` on a non-nil map: `none` when it returns an error. -/
  marshal : Entries → Option String
  /-- The text rendering `fmt.Sprint` of a map. -/
  sprint : Entries → String

/-- One active call: the file of the function and the line it is executing. -/
structure Frame where
  file : String
  line : Int

/-- Go's `runtime.Caller(skip)` on a stack whose head is the function asking: file, line
and the flag `ok`; the zero values and `false` when the stack has no such frame. -/
def runtimeCaller (stack : List Frame) (skip : Nat) : String × Int × Bool :=
  match stack[skip]? with
  | some f => (f.file, f.line, true)
  | none => ("", 0, false)

/-- One delivery to a sink. -/
inductive Event where
  /-- The line was given to the default `log.Print`. -/
  | logPrint : String → Event
  /-- The line was given to the registered writer with this handle. -/
  | writerCall : Nat → String → Event

/-- The line an event carries. -/
def Event.line : Event → String
  | Event.logPrint s => s
  | Event.writerCall _ s => s

/-- How a call ends: it returns after the listed deliveries, or it panics. -/
inductive Outcome where
  | returned : List Event → Outcome
  | panicked : Outcome

/-- The lines a call delivered to its sink. -/
def Outcome.lines : Outcome → List String
  | Outcome.returned evs => evs.map Event.line
  | Outcome.panicked => []

/-! ## The setters -/

/-- Source: `func (l *Logger) SetGlobalLevel(level LevelType)`; the receiver is not used. -/
def SetGlobalLevel (_l : Logger) (level : Int) (_G : Globals) : Globals :=
  ⟨level⟩

/-- Source: `func (logger *Logger) SetLevel(level LevelType)`. -/
def SetLevel (logger : Logger) (level : Int) : Logger :=
  { logger with level := level }

/-- Source: `func (logger *Logger) SetWriter(writer func(string))`. -/
def SetWriter (logger : Logger) (writer : Option Nat) : Logger :=
  { logger with writer := writer }

/-- Go's `append(s, more...)` on string slices: appending nothing to the nil slice leaves
it nil. -/
def appendSlice (s : Option (List String)) (more : List String) : Option (List String) :=
  match s, more with
  | none, [] => none
  | none, m :: ms => some (m :: ms)
  | some l, ms => some (l ++ ms)

/-- Source: `func (logger *Logger) SetTruncations(truncations ...string)`. -/
def SetTruncations (logger : Logger) (truncations : List String) : Logger :=
  { logger with truncations := appendSlice logger.truncations truncations }

/-! ## `buildLogData` -/

/-- The loop `for i := 1; i < len(args); i += 2` of `buildLogData`, from index `i` with
the map built so far. The loop runs at most `len(args)` times, which bounds the fuel. -/
def buildLoop (args : List Value) : Nat → Nat → Entries → Entries
  | 0, _, data => data
  | fuel + 1, i, data =>
    if i < args.length then
      match args[i - 1]?, args[i]? with
      | some (Value.str k), some v => buildLoop args fuel (i + 2) (entriesSet data k v)
      | _, _ => buildLoop args fuel (i + 2) data
    else data

/-- Source: `func buildLogData(args ...interface{}) map[string]interface{}`. -/
def buildLogData (args : List Value) : GoMap :=
  let data : Entries := buildLoop args args.length 1 []
  if args.length = 1 then
    match args.head? with
    | some (Value.map mapData) => mapData
    | _ => some data
  else some data

/-! ## `output` -/

/-- The `switch logLevel` of `output`, with `standard.LogLevelInfo` as the initial value. -/
def levelName (std : Standard) (logLevel : Int) : String :=
  if logLevel = DEBUG then std.LogLevelDebug
  else if logLevel = INFO then std.LogLevelInfo
  else if logLevel = WARNING then std.LogLevelWarning
  else if logLevel = ERROR then std.LogLevelError
  else std.LogLevelInfo

/-- The call-site text of `output` (lines 90 to 95): `runtime.Caller(2)`, the base name of
its file, a colon and the line. `stack` is the stack inside `output`. -/
def callSite (stack : List Frame) : String :=
  match runtimeCaller stack 2 with
  | (fileName, lineNum, _) => Base fileName ++ ":" ++ Itoa lineNum

/-- The four writes of `output` into the field mapping (lines 96 to 99). -/
def outputRecord (env : Env) (stack : List Frame) (logLevel : Int) (logType : String)
    (data : Entries) : Entries :=
  let data := entriesSet data LogFilePath (Value.str (callSite stack))
  let data := entriesSet data env.std.LogFieldLevel (Value.str (levelName env.std logLevel))
  let data := entriesSet data env.std.LogFieldTime env.now
  entriesSet data env.std.LogFieldType (Value.str logType)

/-- The Go map index expression `data[k]` on an `interface{}` map: nil when `k` is absent. -/
def entriesIndex (data : Entries) (k : String) : Value :=
  (entriesGet data k).getD Value.null

/-- The map literal that `output` encodes when the first encoding fails (lines 104 to 110). -/
def fallbackRecord (env : Env) (data : Entries) : Entries :=
  let m := entriesSet [] LogFilePath (entriesIndex data LogFilePath)
  let m := entriesSet m env.std.LogFieldLevel (entriesIndex data env.std.LogFieldLevel)
  let m := entriesSet m env.std.LogFieldTime (entriesIndex data env.std.LogFieldTime)
  let m := entriesSet m env.std.LogFieldType (Value.str env.std.LogTypeUndefined)
  entriesSet m "info" (Value.str (env.sprint data))

/-- The encoding and delivery of `output` (lines 100 to 120), on the field mapping after
the four writes. When the first encoding fails, the fallback record is encoded and the
function returns (line 111); otherwise the line goes to the writer, or to `log.Print` when
no writer is registered. -/
def emit (env : Env) (logger : Logger) (data : Entries) : Outcome :=
  match env.marshal data with
  | none =>
    match env.marshal (fallbackRecord env data) with
    | _ => Outcome.returned []
  | some buf =>
    match logger.writer with
    | none => Outcome.returned [Event.logPrint buf]
    | some w => Outcome.returned [Event.writerCall w buf]

/-- Source: `func output(logger *Logger, logLevel LevelType, logType string, data
map[string]interface{})`. `callers` is the stack at the call, its head the frame of the
function calling `output`; a write to a nil `data` panics. -/
def output (env : Env) (G : Globals) (callers : List Frame) (logger : Logger)
    (logLevel : Int) (logType : String) (data : GoMap) : Outcome :=
  let settedLevel := if logger.level = 0 then G.globalLevelType else logger.level
  if logLevel < settedLevel then Outcome.returned []
  else
    match data with
    | none => Outcome.panicked
    | some entries =>
      emit env logger (outputRecord env (⟨env.coreFile, 90⟩ :: callers) logLevel logType entries)

/-- Source: `func (logger *Logger) log(logLevel LevelType, logType string, data
map[string]interface{})`. -/
def log (env : Env) (G : Globals) (callers : List Frame) (logger : Logger)
    (logLevel : Int) (logType : String) (data : GoMap) : Outcome :=
  output env G (⟨env.coreFile, 66⟩ :: callers) logger logLevel logType data

/-! ## `trace` -/

/-- The loop `for _, truncation := range logger.truncations` of `trace`. -/
def truncateLoop : List String → String → String
  | [], file => file
  | truncation :: rest, file =>
    let pos := Index file truncation
    if pos ≠ -1 then truncateLoop rest (sliceFrom file (pos + len truncation))
    else truncateLoop rest file

/-- The guarded truncation of `trace` (lines 136 to 143): nothing for the nil slice. -/
def applyTruncations (truncations : Option (List String)) (file : String) : String :=
  match truncations with
  | none => file
  | some ts => truncateLoop ts file

/-- Go's `fmt.Sprintf("%s:%d", file, line)`. -/
def sprintfFileLine (file : String) (line : Int) : String :=
  file ++ ":" ++ Itoa line

/-- The loop `for i := 1; i < 20; i++` of `trace`, from index `i` with the entries
collected so far. `stack` is the stack inside `trace`. The loop runs at most 19 times,
which bounds the fuel. -/
def traceLoop (stack : List Frame) (truncations : Option (List String)) :
    Nat → Nat → List String → List String
  | 0, _, traces => traces
  | fuel + 1, i, traces =>
    if i < 20 then
      match runtimeCaller stack i with
      | (file, line, ok) =>
        if !ok then traces
        else if Contains file "/go/src/" then traceLoop stack truncations fuel (i + 1) traces
        else if Contains file "/ssgo/log" then traceLoop stack truncations fuel (i + 1) traces
        else
          traceLoop stack truncations fuel (i + 1)
            (traces ++ [sprintfFileLine (applyTruncations truncations file) line])
    else traces

/-- The entries `traces` that `trace` collects (lines 124 to 145). -/
def traceEntries (stack : List Frame) (truncations : Option (List String)) : List String :=
  traceLoop stack truncations 20 1 []

/-- Source: `func (logger *Logger) trace(LogLevel LevelType, logType string, data
map[string]interface{})`. -/
def trace (env : Env) (G : Globals) (callers : List Frame) (logger : Logger)
    (LogLevel : Int) (logType : String) (data : GoMap) : Outcome :=
  let traces := traceEntries (⟨env.coreFile, 126⟩ :: callers) logger.truncations
  match data with
  | none => Outcome.panicked
  | some entries =>
    output env G (⟨env.coreFile, 147⟩ :: callers) logger LogLevel logType
      (some (entriesSet entries env.std.LogFieldTraces (Value.str (Join traces "; "))))

/-! ## The logging methods -/

/-- Source: `func (logger *Logger) Debug(logType string, data ...interface{})`. -/
def Debug (env : Env) (G : Globals) (callers : List Frame) (logger : Logger)
    (logType : String) (data : List Value) : Outcome :=
  output env G (⟨env.coreFile, 50⟩ :: callers) logger DEBUG logType (buildLogData data)

/-- Source: `func (logger *Logger) Info(logType string, data ...interface{})`. -/
def Info (env : Env) (G : Globals) (callers : List Frame) (logger : Logger)
    (logType : String) (data : List Value) : Outcome :=
  output env G (⟨env.coreFile, 54⟩ :: callers) logger INFO logType (buildLogData data)

/-- Source: `func (logger *Logger) Warning(logType string, data ...interface{})`. -/
def Warning (env : Env) (G : Globals) (callers : List Frame) (logger : Logger)
    (logType : String) (data : List Value) : Outcome :=
  trace env G (⟨env.coreFile, 58⟩ :: callers) logger WARNING logType (buildLogData data)

/-- Source: `func (logger *Logger) Error(logType string, data ...interface{})`. -/
def Error (env : Env) (G : Globals) (callers : List Frame) (logger : Logger)
    (logType : String) (data : List Value) : Outcome :=
  trace env G (⟨env.coreFile, 62⟩ :: callers) logger ERROR logType (buildLogData data)

/-! ## `LogRequest` -/

/-- The positional parameters of `LogRequest`, in the order of the source. -/
structure RequestArgs where
  app : String
  node : String
  clientIp : String
  fromApp : String
  fromNode : String
  clientId : String
  sessionId : String
  requestId : String
  host : String
  scheme : String
  proto : String
  authLevel : Int
  priority : Int
  method : String
  path : String
  requestHeaders : Option (List (String × String))
  requestData : GoMap
  usedTime : Nat
  responseCode : Int
  responseHeaders : Option (List (String × String))
  responseDataLength : Nat
  responseData : Value

/-- The field mapping `LogRequest` assembles (lines 166 to 190): a nil `extraInfo` is
replaced by a fresh map, then the 22 positional parameters are written one by one. -/
def requestRecord (std : Standard) (a : RequestArgs) (extraInfo : GoMap) : Entries :=
  let extraInfo : Entries :=
    match extraInfo with
    | none => []
    | some entries => entries
  let extraInfo := entriesSet extraInfo std.LogFieldRequestApp (Value.str a.app)
  let extraInfo := entriesSet extraInfo std.LogFieldRequestNode (Value.str a.node)
  let extraInfo := entriesSet extraInfo std.LogFieldRequestClientIp (Value.str a.clientIp)
  let extraInfo := entriesSet extraInfo std.LogFieldRequestFromApp (Value.str a.fromApp)
  let extraInfo := entriesSet extraInfo std.LogFieldRequestFromNode (Value.str a.fromNode)
  let extraInfo := entriesSet extraInfo std.LogFieldRequestClientId (Value.str a.clientId)
  let extraInfo := entriesSet extraInfo std.LogFieldRequestSessionId (Value.str a.sessionId)
  let extraInfo := entriesSet extraInfo std.LogFieldRequestRequestId (Value.str a.requestId)
  let extraInfo := entriesSet extraInfo std.LogFieldRequestHost (Value.str a.host)
  let extraInfo := entriesSet extraInfo std.LogFieldRequestScheme (Value.str a.scheme)
  let extraInfo := entriesSet extraInfo std.LogFieldRequestProto (Value.str a.proto)
  let extraInfo := entriesSet extraInfo std.LogFieldRequestAuthLevel (Value.int a.authLevel)
  let extraInfo := entriesSet extraInfo std.LogFieldRequestPriority (Value.int a.priority)
  let extraInfo := entriesSet extraInfo std.LogFieldRequestMethod (Value.str a.method)
  let extraInfo := entriesSet extraInfo std.LogFieldRequestPath (Value.str a.path)
  let extraInfo :=
    entriesSet extraInfo std.LogFieldRequestRequestHeaders (Value.strmap a.requestHeaders)
  let extraInfo := entriesSet extraInfo std.LogFieldRequestArgs (Value.map a.requestData)
  let extraInfo := entriesSet extraInfo std.LogFieldRequestUsedTime (Value.float32 a.usedTime)
  let extraInfo := entriesSet extraInfo std.LogFieldRequestStatus (Value.int a.responseCode)
  let extraInfo :=
    entriesSet extraInfo std.LogFieldRequestResponseHeaders (Value.strmap a.responseHeaders)
  let extraInfo :=
    entriesSet extraInfo std.LogFieldRequestOutLen (Value.uint a.responseDataLength)
  entriesSet extraInfo std.LogFieldRequestResult a.responseData

/-- Source: `func (logger *Logger) LogRequest(app, node, ... , extraInfo
map[string]interface{})`, the positional parameters gathered in `a`. -/
def LogRequest (env : Env) (G : Globals) (callers : List Frame) (logger : Logger)
    (a : RequestArgs) (extraInfo : GoMap) : Outcome :=
  log env G (⟨env.coreFile, 191⟩ :: callers) logger INFO env.std.LogTypeRequest
    (some (requestRecord env.std a extraInfo))

/-! ## Reference definitions, written from the specification -/

/-- The 22 positional field names of a request record, in the order of the parameters. -/
def requestFieldNames (std : Standard) : List String :=
  [std.LogFieldRequestApp, std.LogFieldRequestNode, std.LogFieldRequestClientIp,
   std.LogFieldRequestFromApp, std.LogFieldRequestFromNode, std.LogFieldRequestClientId,
   std.LogFieldRequestSessionId, std.LogFieldRequestRequestId, std.LogFieldRequestHost,
   std.LogFieldRequestScheme, std.LogFieldRequestProto, std.LogFieldRequestAuthLevel,
   std.LogFieldRequestPriority, std.LogFieldRequestMethod, std.LogFieldRequestPath,
   std.LogFieldRequestRequestHeaders, std.LogFieldRequestArgs,
   std.LogFieldRequestUsedTime, std.LogFieldRequestStatus,
   std.LogFieldRequestResponseHeaders, std.LogFieldRequestOutLen,
   std.LogFieldRequestResult]

/-- The 22 positional arguments of a request as values, in the order of the parameters. -/
def requestFieldValues (a : RequestArgs) : List Value :=
  [Value.str a.app, Value.str a.node, Value.str a.clientIp, Value.str a.fromApp,
   Value.str a.fromNode, Value.str a.clientId, Value.str a.sessionId,
   Value.str a.requestId, Value.str a.host, Value.str a.scheme, Value.str a.proto,
   Value.int a.authLevel, Value.int a.priority, Value.str a.method, Value.str a.path,
   Value.strmap a.requestHeaders, Value.map a.requestData, Value.float32 a.usedTime,
   Value.int a.responseCode, Value.strmap a.responseHeaders,
   Value.uint a.responseDataLength, a.responseData]

/-- Whether a value is the text `k`. -/
def Value.isText (k : String) : Value → Bool
  | Value.str s => decide (s = k)
  | _ => false

/-- Reference for `buildLogData` on a list that is not a single mapping: the value
`args[2j+1]` of the last index `j` with `2j+1 < len(args)` and `args[2j]` the text `k`;
nothing when there is no such index. -/
def pairedValue (args : List Value) (k : String) : Option Value :=
  (((List.range (args.length / 2)).filter
      (fun j => ((args[2 * j]?).map (Value.isText k)).getD false)).getLast?).bind
    (fun j => args[2 * j + 1]?)

/-- The reference value restricted to the first `n` pairs. -/
def pairedValueUpTo (args : List Value) (n : Nat) (k : String) : Option Value :=
  (((List.range n).filter
      (fun j => ((args[2 * j]?).map (Value.isText k)).getD false)).getLast?).bind
    (fun j => args[2 * j + 1]?)

/-- One step of the marker fold of the specification: if the marker occurs in the
current path, the text after the marker's first occurrence, otherwise the path. -/
def textAfterFirst (marker : List Char) : List Char → List Char
  | [] => []
  | c :: cs =>
    if marker.isPrefixOf (c :: cs) then (c :: cs).drop marker.length
    else textAfterFirst marker cs

/-- Whether the marker occurs in the path: some suffix of the path starts with it. -/
def occursIn (marker : List Char) (path : List Char) : Bool :=
  path.tails.any (fun t => marker.isPrefixOf t)

/-- The step of the specification's fold over the markers. -/
def markerStep (path : String) (marker : String) : String :=
  if occursIn marker.data path.data then ⟨textAfterFirst marker.data path.data⟩ else path

/-- The recorded path according to the specification: the left fold of `markerStep` over
the markers, in registration order. -/
def foldMarkers (markers : List String) (path : String) : String :=
  markers.foldl markerStep path

/-- The recorded path if the first marker found won: the text after the first
occurrence of the first marker of the sequence that occurs in the path, with no further
shortening; the path itself when no marker occurs. -/
def firstMarkerWins (markers : List String) (path : String) : String :=
  match markers.find? (fun m => occursIn m.data path.data) with
  | some m => ⟨textAfterFirst m.data path.data⟩
  | none => path

/-- Whether `trace` records a frame: its path contains neither `/go/src/` nor `/ssgo/log`. -/
def keptFrame (f : Frame) : Bool :=
  !(Contains f.file "/go/src/") && !(Contains f.file "/ssgo/log")

/-- The entry `trace` records for a frame: the truncated path, a colon and the line. -/
def traceEntry (truncations : Option (List String)) (f : Frame) : String :=
  sprintfFileLine (applyTruncations truncations f.file) f.line

/-- The frames `trace` walks: those at the indices 1 to 19 of its stack. -/
def walkedFrames (stack : List Frame) : List Frame :=
  (stack.take 20).drop 1

/-! ## A sample environment for the concrete instances -/

/-- Sample values for the constants of package `standard`. -/
def sampleStandard : Standard where
  LogLevelDebug := "debug"
  LogLevelInfo := "info"
  LogLevelWarning := "warning"
  LogLevelError := "error"
  LogFieldLevel := "logLevel"
  LogFieldTime := "logTime"
  LogFieldType := "logType"
  LogFieldTraces := "traces"
  LogTypeUndefined := "undefined"
  LogTypeRequest := "request"
  LogFieldRequestApp := "app"
  LogFieldRequestNode := "node"
  LogFieldRequestClientIp := "clientIp"
  LogFieldRequestFromApp := "fromApp"
  LogFieldRequestFromNode := "fromNode"
  LogFieldRequestClientId := "clientId"
  LogFieldRequestSessionId := "sessionId"
  LogFieldRequestRequestId := "requestId"
  LogFieldRequestHost := "host"
  LogFieldRequestScheme := "scheme"
  LogFieldRequestProto := "proto"
  LogFieldRequestAuthLevel := "authLevel"
  LogFieldRequestPriority := "priority"
  LogFieldRequestMethod := "method"
  LogFieldRequestPath := "path"
  LogFieldRequestRequestHeaders := "requestHeaders"
  LogFieldRequestArgs := "requestData"
  LogFieldRequestUsedTime := "usedTime"
  LogFieldRequestStatus := "responseCode"
  LogFieldRequestResponseHeaders := "responseHeaders"
  LogFieldRequestOutLen := "responseDataLength"
  LogFieldRequestResult := "responseData"

/-- Whether a value is of a dynamic type the sample encoder rejects (a channel, a
function, and the like). -/
def Value.isOther : Value → Bool
  | Value.other _ => true
  | _ => false

/-- A sample encoder: an error when a field holds a value of an unencodable dynamic
type, otherwise a line listing the field names. -/
def sampleMarshal (data : Entries) : Option String :=
  if data.any (fun p => p.2.isOther) then none
  else some ("fields " ++ Join (data.map (fun p => p.1)) ",")

/-- A sample environment: the logger's file lies under `/ssgo/log`. -/
def sampleEnv : Env where
  std := sampleStandard
  coreFile := "/home/x/src/github.com/ssgo/log/Logger.go"
  now := Value.str "2024-01-01 00:00:00.000"
  marshal := sampleMarshal
  sprint := fun _ => "map[]"

/-- Sample positional arguments of a request. -/
def sampleRequest : RequestArgs where
  app := "shop"
  node := "10.0.0.1:80"
  clientIp := "10.0.0.9"
  fromApp := "gate"
  fromNode := "10.0.0.2:80"
  clientId := "c1"
  sessionId := "s1"
  requestId := "r1"
  host := "shop.local"
  scheme := "http"
  proto := "1.1"
  authLevel := 1
  priority := 0
  method := "GET"
  path := "/items"
  requestHeaders := none
  requestData := some []
  usedTime := 0
  responseCode := 200
  responseHeaders := none
  responseDataLength := 2
  responseData := Value.str "ok"

/-! ## Lemmas on maps -/

theorem entriesGet_entriesSet (m : Entries) (k : String) (v : Value) (k' : String) :
    entriesGet (entriesSet m k v) k' = if k = k' then some v else entriesGet m k' := by
  induction m with
  | nil =>
    by_cases h : k = k' <;> simp [entriesSet, entriesGet, h]
  | cons p rest ih =>
    obtain ⟨k0, v0⟩ := p
    by_cases h0 : k0 = k
    · subst h0
      by_cases h : k0 = k' <;> simp [entriesSet, entriesGet, h]
    · by_cases h : k = k'
      · subst h
        simp [entriesSet, entriesGet, h0, ih]
      · by_cases h1 : k0 = k'
        · subst h1
          simp [entriesSet, entriesGet, h0, h]
        · simp [entriesSet, entriesGet, h0, h, h1, ih]

theorem entriesGet_entriesSet_self (m : Entries) (k : String) (v : Value) :
    entriesGet (entriesSet m k v) k = some v := by
  simp [entriesGet_entriesSet]

theorem entriesGet_entriesSet_of_ne (m : Entries) (k : String) (v : Value) (k' : String)
    (h : k ≠ k') : entriesGet (entriesSet m k v) k' = entriesGet m k' := by
  simp [entriesGet_entriesSet, h]

/-! ## Level filtering -/

/-- When the level passes and the data is a non-nil map, `output` is the encoding and
delivery of the record after the four writes. -/
theorem output_of_pass (env : Env) (G : Globals) (callers : List Frame) (logger : Logger)
    (logLevel : Int) (logType : String) (entries : Entries)
    (h : (if logger.level = 0 then G.globalLevelType else logger.level) ≤ logLevel) :
    output env G callers logger logLevel logType (some entries) =
      emit env logger
        (outputRecord env (⟨env.coreFile, 90⟩ :: callers) logLevel logType entries) := by
  unfold output
  simp only []
  rw [if_neg (not_lt.mpr h)]

/-- Below the threshold `output` returns without a delivery, whatever the data. -/
theorem output_of_filtered (env : Env) (G : Globals) (callers : List Frame)
    (logger : Logger) (logLevel : Int) (logType : String) (data : GoMap)
    (h : logLevel < (if logger.level = 0 then G.globalLevelType else logger.level)) :
    output env G callers logger logLevel logType data = Outcome.returned [] := by
  unfold output
  simp only []
  rw [if_pos h]

/-- A successful encoding is delivered as exactly one line. -/
theorem emit_lines_of_some (env : Env) (logger : Logger) (data : Entries) (buf : String)
    (h : env.marshal data = some buf) : (emit env logger data).lines = [buf] := by
  unfold emit
  rw [h]
  cases logger.writer <;> simp [Outcome.lines, Event.line]

/-- A failed encoding delivers nothing: the function returns after encoding the fallback. -/
theorem emit_of_none (env : Env) (logger : Logger) (data : Entries)
    (h : env.marshal data = none) : emit env logger data = Outcome.returned [] := by
  unfold emit
  rw [h]

/-- Writing to a nil field mapping panics once the level passes. -/
theorem output_nil_panics (env : Env) (G : Globals) (callers : List Frame)
    (logger : Logger) (logLevel : Int) (logType : String)
    (h : (if logger.level = 0 then G.globalLevelType else logger.level) ≤ logLevel) :
    output env G callers logger logLevel logType none = Outcome.panicked := by
  unfold output
  simp only []
  rw [if_neg (not_lt.mpr h)]

/-- C1: after `SetGlobalLevel` wrote `g` through any logger `setter`, a call of `output`
on any logger at a severity `s` among DEBUG, INFO, WARNING, ERROR, with a field mapping
whose JSON encoding (line 100) succeeds with the line `buf`, delivers a line to the sink
if and only if `s ≥ t`, where `t` is the logger's own level when nonzero and `g`
otherwise; the line delivered is `buf`, and below the threshold nothing is delivered. -/
theorem output_delivers_iff_threshold (env : Env) (setter logger : Logger) (G : Globals)
    (g s : Int) (callers : List Frame) (logType : String) (entries : Entries)
    (buf : String)
    (hs : s = DEBUG ∨ s = INFO ∨ s = WARNING ∨ s = ERROR)
    (henc : env.marshal
      (outputRecord env (⟨env.coreFile, 90⟩ :: callers) s logType entries) = some buf) :
    ((output env (SetGlobalLevel setter g G) callers logger s logType (some entries)).lines
        ≠ [] ↔ s ≥ (if logger.level ≠ 0 then logger.level else g)) ∧
    (s ≥ (if logger.level ≠ 0 then logger.level else g) →
      (output env (SetGlobalLevel setter g G) callers logger s logType
        (some entries)).lines = [buf]) := by
  have _hs := hs
  have ht : (if logger.level ≠ 0 then logger.level else g) =
      (if logger.level = 0 then (SetGlobalLevel setter g G).globalLevelType
        else logger.level) := by
    by_cases h0 : logger.level = 0 <;> simp [h0, SetGlobalLevel]
  rw [ht]
  by_cases hp : (if logger.level = 0 then (SetGlobalLevel setter g G).globalLevelType
      else logger.level) ≤ s
  · have hl := emit_lines_of_some env logger _ buf henc
    rw [output_of_pass env _ callers logger s logType entries hp, hl]
    simp [hp]
  · rw [output_of_filtered env _ callers logger s logType (some entries) (not_le.mp hp)]
    simp [Outcome.lines, hp]

theorem output_delivers_iff_threshold_witness :
    (sampleEnv.marshal (outputRecord sampleEnv
        (⟨sampleEnv.coreFile, 90⟩ :: [⟨sampleEnv.coreFile, 54⟩, ⟨"/home/x/src/app/main.go", 7⟩])
        INFO "start" [("port", Value.int 80)]) = some "fields port,file,logLevel,logTime,logType") ∧
    (((output sampleEnv (SetGlobalLevel ⟨0, none, none⟩ WARNING initialGlobals)
        [⟨sampleEnv.coreFile, 54⟩, ⟨"/home/x/src/app/main.go", 7⟩] ⟨DEBUG, none, some 1⟩ INFO
        "start" (some [("port", Value.int 80)])).lines ≠ [] ↔
          INFO ≥ (if (⟨DEBUG, none, some 1⟩ : Logger).level ≠ 0
            then (⟨DEBUG, none, some 1⟩ : Logger).level else WARNING)) ∧
      (INFO ≥ (if (⟨DEBUG, none, some 1⟩ : Logger).level ≠ 0
            then (⟨DEBUG, none, some 1⟩ : Logger).level else WARNING) →
        (output sampleEnv (SetGlobalLevel ⟨0, none, none⟩ WARNING initialGlobals)
          [⟨sampleEnv.coreFile, 54⟩, ⟨"/home/x/src/app/main.go", 7⟩] ⟨DEBUG, none, some 1⟩ INFO
          "start" (some [("port", Value.int 80)])).lines =
            ["fields port,file,logLevel,logTime,logType"])) :=
  ⟨by rfl, output_delivers_iff_threshold sampleEnv ⟨0, none, none⟩ ⟨DEBUG, none, some 1⟩
    initialGlobals WARNING INFO [⟨sampleEnv.coreFile, 54⟩, ⟨"/home/x/src/app/main.go", 7⟩]
    "start" [("port", Value.int 80)] "fields port,file,logLevel,logTime,logType"
    (Or.inr (Or.inl rfl)) (by rfl)⟩

/-! ## The fields `output` writes -/

/-- The event-type field of the record is the `logType` of the call (the last write). -/
theorem outputRecord_type (env : Env) (stack : List Frame) (logLevel : Int)
    (logType : String) (data : Entries) :
    entriesGet (outputRecord env stack logLevel logType data) env.std.LogFieldType =
      some (Value.str logType) := by
  simp [outputRecord, entriesGet_entriesSet]

/-- The severity field of the record is the name of the level, when the field names of
the later writes differ from it. -/
theorem outputRecord_level (env : Env) (stack : List Frame) (logLevel : Int)
    (logType : String) (data : Entries)
    (h1 : env.std.LogFieldTime ≠ env.std.LogFieldLevel)
    (h2 : env.std.LogFieldType ≠ env.std.LogFieldLevel) :
    entriesGet (outputRecord env stack logLevel logType data) env.std.LogFieldLevel =
      some (Value.str (levelName env.std logLevel)) := by
  simp [outputRecord, entriesGet_entriesSet, h1, h2]

/-- The call-site field of the record is the text computed from `runtime.Caller(2)`, when
the field names of the later writes differ from `LogFilePath`. -/
theorem outputRecord_file (env : Env) (stack : List Frame) (logLevel : Int)
    (logType : String) (data : Entries)
    (h1 : env.std.LogFieldLevel ≠ LogFilePath)
    (h2 : env.std.LogFieldTime ≠ LogFilePath)
    (h3 : env.std.LogFieldType ≠ LogFilePath) :
    entriesGet (outputRecord env stack logLevel logType data) LogFilePath =
      some (Value.str (callSite stack)) := by
  simp [outputRecord, entriesGet_entriesSet, h1, h2, h3]

/-! ## The fallback path -/

/-- C2, on the code: when the event passes the threshold and the encoding of its field
mapping fails, `output` encodes the fallback record and returns at line 111 without
handing anything to the sink, so no line is delivered. -/
theorem output_unencodable_delivers_nothing (env : Env) (G : Globals)
    (callers : List Frame) (logger : Logger) (logLevel : Int) (logType : String)
    (entries : Entries)
    (hpass : (if logger.level = 0 then G.globalLevelType else logger.level) ≤ logLevel)
    (herr : env.marshal
      (outputRecord env (⟨env.coreFile, 90⟩ :: callers) logLevel logType entries) = none) :
    output env G callers logger logLevel logType (some entries) = Outcome.returned [] ∧
    (output env G callers logger logLevel logType (some entries)).lines = [] := by
  rw [output_of_pass env G callers logger logLevel logType entries hpass,
    emit_of_none env logger _ herr]
  exact ⟨rfl, rfl⟩

theorem output_unencodable_delivers_nothing_witness :
    ((if (⟨0, none, none⟩ : Logger).level = 0 then initialGlobals.globalLevelType
        else (⟨0, none, none⟩ : Logger).level) ≤ INFO) ∧
    (sampleEnv.marshal (outputRecord sampleEnv
        (⟨sampleEnv.coreFile, 90⟩ :: [⟨sampleEnv.coreFile, 54⟩, ⟨"/home/x/src/app/main.go", 7⟩])
        INFO "job" [("ch", Value.other 0)]) = none) ∧
    (output sampleEnv initialGlobals
        [⟨sampleEnv.coreFile, 54⟩, ⟨"/home/x/src/app/main.go", 7⟩] ⟨0, none, none⟩ INFO "job"
        (some [("ch", Value.other 0)]) = Outcome.returned [] ∧
      (output sampleEnv initialGlobals
        [⟨sampleEnv.coreFile, 54⟩, ⟨"/home/x/src/app/main.go", 7⟩] ⟨0, none, none⟩ INFO "job"
        (some [("ch", Value.other 0)])).lines = []) :=
  ⟨by decide, by rfl, output_unencodable_delivers_nothing sampleEnv initialGlobals
    [⟨sampleEnv.coreFile, 54⟩, ⟨"/home/x/src/app/main.go", 7⟩] ⟨0, none, none⟩ INFO "job"
    [("ch", Value.other 0)] (by decide) (by rfl)⟩

/-! ## `LogRequest` and the level filter -/

/-- C4 as stated fails: on a logger whose own level is WARNING, `LogRequest` with sample
arguments and a nil extra mapping delivers no line at all. -/
theorem logRequest_filtered_counterexample :
    ¬ ∃ l, (LogRequest sampleEnv initialGlobals [⟨"/home/x/src/app/main.go", 7⟩]
      ⟨WARNING, none, none⟩ sampleRequest none).lines = [l] := by
  have h : (LogRequest sampleEnv initialGlobals [⟨"/home/x/src/app/main.go", 7⟩]
      ⟨WARNING, none, none⟩ sampleRequest none).lines = [] := by rfl
  rw [h]
  simp

/-- C4, amended: for every logger state and argument list, when the threshold (the
logger's own level if nonzero, else the global level) is at most INFO and the request
record encodes to `buf`, `LogRequest` delivers exactly the one line `buf`, whose record
carries the INFO level name and the event type `LogTypeRequest`; when the threshold is
above INFO it delivers nothing. -/
theorem logRequest_delivers_one_when_passing (env : Env) (G : Globals)
    (callers : List Frame) (logger : Logger) (a : RequestArgs) (extraInfo : GoMap)
    (buf : String)
    (h1 : env.std.LogFieldTime ≠ env.std.LogFieldLevel)
    (h2 : env.std.LogFieldType ≠ env.std.LogFieldLevel)
    (henc : env.marshal (outputRecord env
      (⟨env.coreFile, 90⟩ :: ⟨env.coreFile, 66⟩ :: ⟨env.coreFile, 191⟩ :: callers) INFO
      env.std.LogTypeRequest (requestRecord env.std a extraInfo)) = some buf) :
    ((if logger.level = 0 then G.globalLevelType else logger.level) ≤ INFO →
      (LogRequest env G callers logger a extraInfo).lines = [buf] ∧
      LogRequest env G callers logger a extraInfo = emit env logger (outputRecord env
        (⟨env.coreFile, 90⟩ :: ⟨env.coreFile, 66⟩ :: ⟨env.coreFile, 191⟩ :: callers) INFO
        env.std.LogTypeRequest (requestRecord env.std a extraInfo)) ∧
      entriesGet (outputRecord env
        (⟨env.coreFile, 90⟩ :: ⟨env.coreFile, 66⟩ :: ⟨env.coreFile, 191⟩ :: callers) INFO
        env.std.LogTypeRequest (requestRecord env.std a extraInfo)) env.std.LogFieldLevel =
          some (Value.str env.std.LogLevelInfo) ∧
      entriesGet (outputRecord env
        (⟨env.coreFile, 90⟩ :: ⟨env.coreFile, 66⟩ :: ⟨env.coreFile, 191⟩ :: callers) INFO
        env.std.LogTypeRequest (requestRecord env.std a extraInfo)) env.std.LogFieldType =
          some (Value.str env.std.LogTypeRequest)) ∧
    (INFO < (if logger.level = 0 then G.globalLevelType else logger.level) →
      (LogRequest env G callers logger a extraInfo).lines = []) := by
  constructor
  · intro hp
    have hout : LogRequest env G callers logger a extraInfo = emit env logger
        (outputRecord env
          (⟨env.coreFile, 90⟩ :: ⟨env.coreFile, 66⟩ :: ⟨env.coreFile, 191⟩ :: callers) INFO
          env.std.LogTypeRequest (requestRecord env.std a extraInfo)) := by
      unfold LogRequest log
      exact output_of_pass env G _ logger INFO _ _ hp
    refine ⟨?_, hout, ?_, outputRecord_type env _ INFO _ _⟩
    · rw [hout]
      exact emit_lines_of_some env logger _ buf henc
    · rw [outputRecord_level env _ INFO _ _ h1 h2]
      simp [levelName, INFO, DEBUG]
  · intro hf
    unfold LogRequest log
    rw [output_of_filtered env G _ logger INFO _ _ hf]
    rfl

theorem logRequest_delivers_one_when_passing_witness :
    (sampleEnv.std.LogFieldTime ≠ sampleEnv.std.LogFieldLevel) ∧
    (sampleEnv.std.LogFieldType ≠ sampleEnv.std.LogFieldLevel) ∧
    ((if (⟨0, none, some 3⟩ : Logger).level = 0 then initialGlobals.globalLevelType
        else (⟨0, none, some 3⟩ : Logger).level) ≤ INFO) ∧
    (LogRequest sampleEnv initialGlobals [⟨"/home/x/src/app/main.go", 7⟩] ⟨0, none, some 3⟩
      sampleRequest none).lines =
      ["fields app,node,clientIp,fromApp,fromNode,clientId,sessionId,requestId,host,scheme," ++
        "proto,authLevel,priority,method,path,requestHeaders,requestData,usedTime," ++
        "responseCode,responseHeaders,responseDataLength,responseData,file,logLevel," ++
        "logTime,logType"] :=
  ⟨by decide, by decide, by decide,
    ((logRequest_delivers_one_when_passing sampleEnv initialGlobals
      [⟨"/home/x/src/app/main.go", 7⟩] ⟨0, none, some 3⟩ sampleRequest none _
      (by decide) (by decide) (by rfl)).1 (by decide)).1⟩

/-! ## `buildLogData` against its reference -/

/-- The indices the reference ranges over, `j < len(args) / 2`, are exactly the indices
of the complete pairs, `2j+1 < len(args)`. -/
theorem pair_index_iff (args : List Value) (j : Nat) :
    j ∈ List.range (args.length / 2) ↔ 2 * j + 1 < args.length := by
  rw [List.mem_range]
  omega

theorem pairedValue_eq_upTo (args : List Value) (k : String) :
    pairedValue args k = pairedValueUpTo args (args.length / 2) k := rfl

/-- Adding the pair `j` whose name is the text `k0`: it wins for `k0`, and changes
nothing for the other keys. -/
theorem pairedValueUpTo_succ_str (args : List Value) (j : Nat) (k0 : String) (v : Value)
    (hk : args[2 * j]? = some (Value.str k0)) (hv : args[2 * j + 1]? = some v)
    (k : String) :
    pairedValueUpTo args (j + 1) k =
      if k0 = k then some v else pairedValueUpTo args j k := by
  unfold pairedValueUpTo
  rw [List.range_succ, List.filter_append]
  by_cases h : k0 = k
  · simp [hk, Value.isText, h, hv]
  · simp [hk, Value.isText, h]

/-- Adding a pair whose name is not text changes nothing. -/
theorem pairedValueUpTo_succ_skip (args : List Value) (j : Nat) (x : Value)
    (hk : args[2 * j]? = some x) (hx : ∀ s, x ≠ Value.str s) (k : String) :
    pairedValueUpTo args (j + 1) k = pairedValueUpTo args j k := by
  unfold pairedValueUpTo
  rw [List.range_succ, List.filter_append]
  have hfalse : Value.isText k x = false := by
    cases x <;> simp [Value.isText] at hx ⊢
  simp [hk, hfalse]

/-- The loop of `buildLogData` keeps the invariant `data = reference on the pairs seen`
and ends with the reference on all pairs, given fuel for the pairs left. -/
theorem buildLoop_get (args : List Value) :
    ∀ (fuel j : Nat) (data : Entries),
      (∀ k, entriesGet data k = pairedValueUpTo args j k) →
      j ≤ args.length / 2 → args.length / 2 - j ≤ fuel →
      ∀ k, entriesGet (buildLoop args fuel (2 * j + 1) data) k =
        pairedValueUpTo args (args.length / 2) k := by
  intro fuel
  induction fuel with
  | zero =>
    intro j data hinv hj hfuel k
    have hje : j = args.length / 2 := by omega
    rw [← hje]
    simpa [buildLoop] using hinv k
  | succ fuel ih =>
    intro j data hinv hj hfuel k
    unfold buildLoop
    by_cases hlt : 2 * j + 1 < args.length
    · rw [if_pos hlt]
      have h0 : 2 * j < args.length := by omega
      have hidx : 2 * j + 1 - 1 = 2 * j := by omega
      have hnext : 2 * j + 1 + 2 = 2 * (j + 1) + 1 := by omega
      have hk : args[2 * j]? = some (args.get ⟨2 * j, h0⟩) := by
        simp [List.getElem?_eq_getElem h0]
      have hv : args[2 * j + 1]? = some (args.get ⟨2 * j + 1, hlt⟩) := by
        simp [List.getElem?_eq_getElem hlt]
      rw [hidx, hk, hv, hnext]
      have hj1 : j + 1 ≤ args.length / 2 := by omega
      have hf1 : args.length / 2 - (j + 1) ≤ fuel := by omega
      generalize args.get ⟨2 * j, h0⟩ = x at hk
      generalize args.get ⟨2 * j + 1, hlt⟩ = v at hv
      cases x with
      | str k0 =>
        apply ih (j + 1) _ _ hj1 hf1
        intro k1
        rw [entriesGet_entriesSet, hinv k1, pairedValueUpTo_succ_str args j k0 v hk hv k1]
      | null =>
        apply ih (j + 1) _ _ hj1 hf1
        intro k1
        rw [hinv k1, pairedValueUpTo_succ_skip args j _ hk (by intro s; simp) k1]
      | int n =>
        apply ih (j + 1) _ _ hj1 hf1
        intro k1
        rw [hinv k1, pairedValueUpTo_succ_skip args j _ hk (by intro s; simp) k1]
      | uint n =>
        apply ih (j + 1) _ _ hj1 hf1
        intro k1
        rw [hinv k1, pairedValueUpTo_succ_skip args j _ hk (by intro s; simp) k1]
      | float32 n =>
        apply ih (j + 1) _ _ hj1 hf1
        intro k1
        rw [hinv k1, pairedValueUpTo_succ_skip args j _ hk (by intro s; simp) k1]
      | map m =>
        apply ih (j + 1) _ _ hj1 hf1
        intro k1
        rw [hinv k1, pairedValueUpTo_succ_skip args j _ hk (by intro s; simp) k1]
      | strmap m =>
        apply ih (j + 1) _ _ hj1 hf1
        intro k1
        rw [hinv k1, pairedValueUpTo_succ_skip args j _ hk (by intro s; simp) k1]
      | other n =>
        apply ih (j + 1) _ _ hj1 hf1
        intro k1
        rw [hinv k1, pairedValueUpTo_succ_skip args j _ hk (by intro s; simp) k1]
    · rw [if_neg hlt]
      have hje : j = args.length / 2 := by omega
      rw [← hje]
      exact hinv k

/-- C3: `buildLogData` equals its reference definition for every argument list. A list
that is exactly one field mapping gives that mapping unchanged; any other list gives a
non-nil mapping that holds, for each text `k`, the value `args[2j+1]` of the last index
`j` with `2j+1 < len(args)` and `args[2j]` the text `k`, and no other key. Hence
`buildLogData("a",1,"b",2) = {a:1,b:2}`, a single non-map argument gives the empty
mapping, a trailing unpaired argument is dropped, and a pair whose name is not text is
skipped without shifting the pairs after it. -/
theorem buildLogData_eq_reference (args : List Value) :
    (∀ m, buildLogData [Value.map m] = m) ∧
    ((∃ m, args = [Value.map m]) ∨
      ∃ entries, buildLogData args = some entries ∧
        ∀ k, entriesGet entries k = pairedValue args k) ∧
    buildLogData [Value.str "a", Value.int 1, Value.str "b", Value.int 2] =
      some [("a", Value.int 1), ("b", Value.int 2)] ∧
    buildLogData [Value.str "a"] = some [] ∧
    buildLogData [Value.str "a", Value.int 1, Value.str "b"] = some [("a", Value.int 1)] ∧
    buildLogData [Value.int 7, Value.int 1, Value.str "b", Value.int 2] =
      some [("b", Value.int 2)] := by
  refine ⟨fun m => rfl, ?_, rfl, rfl, rfl, rfl⟩
  have hloop : ∀ k, entriesGet (buildLoop args args.length 1 []) k = pairedValue args k := by
    intro k
    rw [pairedValue_eq_upTo]
    exact buildLoop_get args args.length 0 []
      (fun k1 => by simp [pairedValueUpTo, entriesGet]) (Nat.zero_le _) (by omega) k
  by_cases hone : ∃ m, args = [Value.map m]
  · exact Or.inl hone
  · refine Or.inr ⟨buildLoop args args.length 1 [], ?_, hloop⟩
    unfold buildLogData
    by_cases hlen : args.length = 1
    · match args, hlen, hone with
      | [x], _, hone =>
        cases x with
        | map m => exact absurd ⟨m, rfl⟩ hone
        | _ => rfl
    · simp [hlen]

/-! ## The record of `LogRequest` -/

/-- A run of writes leaves the keys it does not write as they were. -/
theorem foldl_entriesSet_get_of_not_mem (kvs : List (String × Value)) :
    ∀ (m : Entries) (k : String), k ∉ kvs.map Prod.fst →
      entriesGet (kvs.foldl (fun m p => entriesSet m p.1 p.2) m) k = entriesGet m k := by
  induction kvs with
  | nil => intro m k _; rfl
  | cons q rest ih =>
    intro m k hk
    simp only [List.map_cons, List.mem_cons, not_or] at hk
    rw [List.foldl_cons, ih _ k hk.2, entriesGet_entriesSet_of_ne m q.1 q.2 k (Ne.symm hk.1)]

/-- A run of writes to pairwise distinct keys leaves each key with the value written. -/
theorem foldl_entriesSet_get_of_mem (kvs : List (String × Value)) :
    ∀ (m : Entries), (kvs.map Prod.fst).Nodup → ∀ p ∈ kvs,
      entriesGet (kvs.foldl (fun m p => entriesSet m p.1 p.2) m) p.1 = some p.2 := by
  induction kvs with
  | nil => intro m _ p hp; simp at hp
  | cons q rest ih =>
    intro m hnd p hp
    rw [List.map_cons, List.nodup_cons] at hnd
    rw [List.foldl_cons]
    rcases List.mem_cons.mp hp with hpq | hpr
    · subst hpq
      rw [foldl_entriesSet_get_of_not_mem rest _ p.1 hnd.1, entriesGet_entriesSet_self]
    · exact ih _ hnd.2 p hpr

/-- The 22 writes of `LogRequest` are the run of writes of the names paired with the
arguments, on the extra mapping (a fresh map when it is nil). -/
theorem requestRecord_eq_foldl (std : Standard) (a : RequestArgs) (extraInfo : GoMap) :
    requestRecord std a extraInfo =
      ((requestFieldNames std).zip (requestFieldValues a)).foldl
        (fun m p => entriesSet m p.1 p.2) (extraInfo.getD []) := by
  cases extraInfo <;>
    simp only [requestRecord, requestFieldNames, requestFieldValues, List.zip_cons_cons,
      List.zip_nil_right, List.foldl_cons, List.foldl_nil, Option.getD_none,
      Option.getD_some]

/-- C5: given pairwise distinct request field names, the record `LogRequest` hands to the
emit path (through `log`) maps each of the 22 positional field names to its positional
argument, whatever the extra mapping (nil included) holds under that name, and keeps
every extra field whose key is not a positional field name with its value unchanged. -/
theorem logRequest_record_fields (env : Env) (G : Globals) (callers : List Frame)
    (logger : Logger) (a : RequestArgs) (extraInfo : GoMap)
    (hnd : (requestFieldNames env.std).Nodup) :
    LogRequest env G callers logger a extraInfo =
      log env G (⟨env.coreFile, 191⟩ :: callers) logger INFO env.std.LogTypeRequest
        (some (requestRecord env.std a extraInfo)) ∧
    (requestFieldNames env.std).length = 22 ∧ (requestFieldValues a).length = 22 ∧
    (∀ (i : Nat) (name : String) (v : Value),
      (requestFieldNames env.std)[i]? = some name → (requestFieldValues a)[i]? = some v →
        entriesGet (requestRecord env.std a extraInfo) name = some v) ∧
    (∀ k, k ∉ requestFieldNames env.std →
      entriesGet (requestRecord env.std a extraInfo) k = extraInfo.get k) := by
  refine ⟨rfl, rfl, rfl, ?_, ?_⟩
  · intro i name v hn hv
    rw [requestRecord_eq_foldl]
    have hmem : (name, v) ∈ (requestFieldNames env.std).zip (requestFieldValues a) := by
      rw [List.mem_iff_getElem?]
      exact ⟨i, List.getElem?_zip_eq_some.mpr ⟨hn, hv⟩⟩
    have hkeys : (((requestFieldNames env.std).zip (requestFieldValues a)).map
        Prod.fst).Nodup := by
      rw [List.map_fst_zip _ _ (by simp [requestFieldNames, requestFieldValues])]
      exact hnd
    exact foldl_entriesSet_get_of_mem _ _ hkeys (name, v) hmem
  · intro k hk
    rw [requestRecord_eq_foldl]
    have hkeys : k ∉ ((requestFieldNames env.std).zip (requestFieldValues a)).map
        Prod.fst := by
      rw [List.map_fst_zip _ _ (by simp [requestFieldNames, requestFieldValues])]
      exact hk
    rw [foldl_entriesSet_get_of_not_mem _ _ k hkeys]
    cases extraInfo <;> rfl

theorem logRequest_record_fields_witness :
    (requestFieldNames sampleEnv.std).Nodup ∧
    entriesGet (requestRecord sampleEnv.std sampleRequest
      (some [("app", Value.str "forged"), ("note", Value.int 5)])) "app" =
        some (Value.str "shop") ∧
    entriesGet (requestRecord sampleEnv.std sampleRequest
      (some [("app", Value.str "forged"), ("note", Value.int 5)])) "note" =
        GoMap.get (some [("app", Value.str "forged"), ("note", Value.int 5)]) "note" :=
  ⟨by decide,
    (logRequest_record_fields sampleEnv initialGlobals [] ⟨0, none, none⟩ sampleRequest
      (some [("app", Value.str "forged"), ("note", Value.int 5)]) (by decide)).2.2.2.1
      0 "app" (Value.str "shop") rfl rfl,
    (logRequest_record_fields sampleEnv initialGlobals [] ⟨0, none, none⟩ sampleRequest
      (some [("app", Value.str "forged"), ("note", Value.int 5)]) (by decide)).2.2.2.2
      "note" (by decide)⟩

/-! ## The stack walk of `trace` -/

/-- The loop of `trace` from index `i`, with fuel for the indices left: it appends the
entries of the kept frames among those at the indices `i` to 19. -/
theorem traceLoop_eq (stack : List Frame) (truncations : Option (List String)) :
    ∀ (fuel i : Nat) (traces : List String), 20 ≤ fuel + i →
      traceLoop stack truncations fuel i traces =
        traces ++ ((((stack.take 20).drop i).filter keptFrame).map
          (traceEntry truncations)) := by
  intro fuel
  induction fuel with
  | zero =>
    intro i traces hi
    have hnil : (stack.take 20).drop i = [] :=
      List.drop_eq_nil_of_le (by rw [List.length_take]; omega)
    simp [traceLoop, hnil]
  | succ fuel ih =>
    intro i traces hi
    unfold traceLoop
    by_cases hlt : i < 20
    · rw [if_pos hlt]
      cases hget : stack[i]? with
      | none =>
        have hlen : stack.length ≤ i := by
          rcases Nat.lt_or_ge i stack.length with h | h
          · rw [List.getElem?_eq_getElem h] at hget
            cases hget
          · exact h
        have hnil : (stack.take 20).drop i = [] :=
          List.drop_eq_nil_of_le (by rw [List.length_take]; omega)
        simp [runtimeCaller, hget, hnil]
      | some f =>
        have hilen : i < stack.length := by
          rcases Nat.lt_or_ge i stack.length with h | h
          · exact h
          · rw [List.getElem?_eq_none h] at hget
            cases hget
        have htake : i < (stack.take 20).length := by
          rw [List.length_take]; omega
        have hf : (stack.take 20).get ⟨i, htake⟩ = f := by
          have h1 : (stack.take 20)[i]? = some f := by
            rw [List.getElem?_take_of_lt hlt]; exact hget
          rw [List.getElem?_eq_getElem htake] at h1
          simpa using h1
        have hdrop : (stack.take 20).drop i = f :: (stack.take 20).drop (i + 1) := by
          rw [List.drop_eq_getElem_cons htake]
          simpa using hf
        have hfuel : 20 ≤ fuel + (i + 1) := by omega
        simp only [runtimeCaller, hget, Bool.not_true, Bool.false_eq_true, if_false]
        rw [hdrop]
        by_cases hgo : Contains f.file "/go/src/" = true
        · rw [if_pos hgo, ih (i + 1) traces hfuel]
          simp [keptFrame, hgo]
        · rw [if_neg hgo]
          by_cases hlog : Contains f.file "/ssgo/log" = true
          · rw [if_pos hlog, ih (i + 1) traces hfuel]
            simp [keptFrame, hlog]
          · rw [if_neg hlog, ih (i + 1) _ hfuel]
            simp [keptFrame, hgo, hlog, traceEntry]
    · rw [if_neg hlt]
      have hnil : (stack.take 20).drop i = [] :=
        List.drop_eq_nil_of_le (by rw [List.length_take]; omega)
      simp [hnil]

/-- The entries of `trace` are the entries of the kept frames among the walked ones. -/
theorem traceEntries_eq (stack : List Frame) (truncations : Option (List String)) :
    traceEntries stack truncations =
      ((walkedFrames stack).filter keptFrame).map (traceEntry truncations) := by
  unfold traceEntries walkedFrames
  rw [traceLoop_eq stack truncations 20 1 [] (by omega)]
  simp

/-- C6: for every stack and every list of truncation markers, the entries of the trace
that `trace` builds for Warning and Error are, in order, the entries of the walked
frames whose original path contains neither `/go/src/` nor `/ssgo/log`; so every entry
comes from such a frame, and a frame whose path contains either text is never recorded,
whatever the markers are. -/
theorem trace_skips_stdlib_and_core (stack : List Frame)
    (truncations : Option (List String)) :
    traceEntries stack truncations =
      ((walkedFrames stack).filter
        (fun f => !(Contains f.file "/go/src/") && !(Contains f.file "/ssgo/log"))).map
        (fun f => sprintfFileLine (applyTruncations truncations f.file) f.line) ∧
    (∀ e ∈ traceEntries stack truncations, ∃ f ∈ stack,
      Contains f.file "/go/src/" = false ∧ Contains f.file "/ssgo/log" = false ∧
      e = sprintfFileLine (applyTruncations truncations f.file) f.line) := by
  have heq := traceEntries_eq stack truncations
  refine ⟨heq, ?_⟩
  intro e he
  rw [heq, List.mem_map] at he
  obtain ⟨f, hf, rfl⟩ := he
  rw [List.mem_filter] at hf
  have hmem : f ∈ stack := by
    have h1 : f ∈ stack.take 20 := List.mem_of_mem_drop hf.1
    exact List.mem_of_mem_take h1
  have hk := hf.2
  simp only [keptFrame, Bool.and_eq_true, Bool.not_eq_true'] at hk
  exact ⟨f, hmem, hk.1, hk.2, rfl⟩

theorem trace_skips_stdlib_and_core_witness :
    traceEntries
      [⟨"/home/x/src/github.com/ssgo/log/Logger.go", 126⟩,
       ⟨"/home/x/src/github.com/ssgo/log/Logger.go", 58⟩,
       ⟨"/home/x/src/app/main.go", 10⟩,
       ⟨"/usr/local/go/src/runtime/proc.go", 250⟩] (some ["/go/src/", "/src/"]) =
      ["app/main.go:10"] ∧
    ∃ f ∈ [(⟨"/home/x/src/github.com/ssgo/log/Logger.go", 126⟩ : Frame),
       ⟨"/home/x/src/github.com/ssgo/log/Logger.go", 58⟩,
       ⟨"/home/x/src/app/main.go", 10⟩,
       ⟨"/usr/local/go/src/runtime/proc.go", 250⟩],
      Contains f.file "/go/src/" = false ∧ Contains f.file "/ssgo/log" = false ∧
      "app/main.go:10" =
        sprintfFileLine (applyTruncations (some ["/go/src/", "/src/"]) f.file) f.line :=
  ⟨by decide,
    (trace_skips_stdlib_and_core
      [⟨"/home/x/src/github.com/ssgo/log/Logger.go", 126⟩,
       ⟨"/home/x/src/github.com/ssgo/log/Logger.go", 58⟩,
       ⟨"/home/x/src/app/main.go", 10⟩,
       ⟨"/usr/local/go/src/runtime/proc.go", 250⟩] (some ["/go/src/", "/src/"])).2
      "app/main.go:10" (by decide)⟩

/-! ## Path truncation -/

/-- The index search answers `-1` or a position. -/
theorem indexChars_ge (sub s : List Char) : indexChars sub s = -1 ∨ 0 ≤ indexChars sub s := by
  induction s with
  | nil =>
    unfold indexChars
    by_cases h : sub.isEmpty = true <;> simp [h]
  | cons c cs ih =>
    unfold indexChars
    by_cases hp : sub.isPrefixOf (c :: cs) = true
    · simp [hp]
    · simp only [hp, Bool.false_eq_true, if_false]
      by_cases hr : indexChars sub cs = -1
      · simp [hr]
      · rw [if_neg hr]
        right
        rcases ih with h | h
        · exact absurd h hr
        · omega

/-- The index search answers `-1` exactly when the marker does not occur. -/
theorem indexChars_eq_neg_one_iff (sub s : List Char) :
    indexChars sub s = -1 ↔ occursIn sub s = false := by
  induction s with
  | nil =>
    unfold indexChars occursIn
    cases sub with
    | nil => simp
    | cons a rest => simp [List.isPrefixOf]
  | cons c cs ih =>
    unfold indexChars
    have hocc : occursIn sub (c :: cs) = (sub.isPrefixOf (c :: cs) || occursIn sub cs) := by
      simp [occursIn, List.tails]
    rw [hocc]
    by_cases hp : sub.isPrefixOf (c :: cs) = true
    · simp [hp]
    · simp only [hp, Bool.false_eq_true, if_false, Bool.false_or]
      by_cases hr : indexChars sub cs = -1
      · simp [hr, ih.mp hr]
      · rw [if_neg hr]
        have hne : occursIn sub cs ≠ false := fun h => hr (ih.mpr h)
        rcases indexChars_ge sub cs with h | h
        · exact absurd h hr
        · constructor
          · intro h1; omega
          · intro h1; exact absurd h1 hne

/-- When the marker occurs, slicing after position plus length gives the text after the
marker's first occurrence. -/
theorem drop_indexChars (sub s : List Char) (h : indexChars sub s ≠ -1) :
    s.drop (indexChars sub s + (sub.length : Int)).toNat = textAfterFirst sub s := by
  induction s with
  | nil => simp [textAfterFirst]
  | cons c cs ih =>
    unfold indexChars at h ⊢
    unfold textAfterFirst
    by_cases hp : sub.isPrefixOf (c :: cs) = true
    · simp [hp]
    · simp only [hp, Bool.false_eq_true, if_false] at h ⊢
      by_cases hr : indexChars sub cs = -1
      · simp [hr] at h
      · rw [if_neg hr]
        have hnn : 0 ≤ indexChars sub cs := by
          rcases indexChars_ge sub cs with h1 | h1
          · exact absurd h1 hr
          · exact h1
        have harith : (indexChars sub cs + 1 + (sub.length : Int)).toNat =
            (indexChars sub cs + (sub.length : Int)).toNat + 1 := by omega
        rw [harith, List.drop_succ_cons]
        exact ih hr

/-- One round of the truncation loop is one step of the specification's fold. -/
theorem truncate_step (file truncation : String) :
    (if Index file truncation ≠ -1
      then sliceFrom file (Index file truncation + len truncation) else file) =
      markerStep file truncation := by
  unfold markerStep
  by_cases h : Index file truncation = -1
  · have hocc : occursIn truncation.data file.data = false :=
      (indexChars_eq_neg_one_iff _ _).mp h
    simp [h, hocc]
  · have hocc : occursIn truncation.data file.data = true := by
      cases hb : occursIn truncation.data file.data with
      | true => rfl
      | false => exact absurd ((indexChars_eq_neg_one_iff _ _).mpr hb) h
    rw [if_pos h, if_pos hocc]
    unfold sliceFrom Index len
    rw [drop_indexChars _ _ h]

/-- The truncation loop is the left fold of the specification. -/
theorem truncateLoop_eq_foldMarkers (markers : List String) :
    ∀ file, truncateLoop markers file = foldMarkers markers file := by
  induction markers with
  | nil => intro file; rfl
  | cons t rest ih =>
    intro file
    have hstep := truncate_step file t
    unfold truncateLoop foldMarkers
    rw [List.foldl_cons, ← hstep]
    by_cases h : Index file t = -1
    · simp only [h, ne_eq, not_true_eq_false, if_false]
      exact ih file
    · simp only [h, ne_eq, not_false_eq_true, if_true]
      exact ih _

/-- C7: for every frame path and every marker sequence, the path `trace` records is the
left fold over the markers, in registration order, of the step "if the marker occurs in
the current path, replace the path by the text after the marker's first occurrence,
otherwise keep the path", each marker being searched in the already-shortened path; the
entries of the trace are built from these paths; and with markers `["/src/"]` and path
`/home/x/src/app/main.go` the recorded path is `app/main.go`. -/
theorem truncation_is_marker_fold (markers : List String) (path : String)
    (stack : List Frame) :
    applyTruncations (some markers) path = foldMarkers markers path ∧
    applyTruncations none path = foldMarkers [] path ∧
    traceEntries stack (some markers) =
      ((walkedFrames stack).filter keptFrame).map
        (fun f => sprintfFileLine (foldMarkers markers f.file) f.line) ∧
    applyTruncations (some ["/src/"]) "/home/x/src/app/main.go" = "app/main.go" := by
  refine ⟨truncateLoop_eq_foldMarkers markers path, rfl, ?_, by decide⟩
  rw [traceEntries_eq]
  apply List.map_congr_left
  intro f _
  simp [traceEntry, applyTruncations, truncateLoop_eq_foldMarkers]

/-- C8 as stated fails: with markers `["/src/", "app/"]` and the path
`/home/x/src/app/main.go`, the first marker that occurs is `/src/` and the text after it
is `app/main.go`, yet the recorded path is `main.go`: the later marker shortened it. -/
theorem first_marker_wins_counterexample :
    (∃ m ∈ ["/src/", "app/"], occursIn m.data "/home/x/src/app/main.go".data = true) ∧
    firstMarkerWins ["/src/", "app/"] "/home/x/src/app/main.go" = "app/main.go" ∧
    applyTruncations (some ["/src/", "app/"]) "/home/x/src/app/main.go" = "main.go" ∧
    applyTruncations (some ["/src/", "app/"]) "/home/x/src/app/main.go" ≠
      firstMarkerWins ["/src/", "app/"] "/home/x/src/app/main.go" := by
  refine ⟨⟨"/src/", by decide, by decide⟩, by decide, by decide, by decide⟩

/-- Markers that do not occur in the path leave it as it is. -/
theorem truncateLoop_of_none_occurs (markers : List String) (file : String)
    (h : ∀ x ∈ markers, occursIn x.data file.data = false) :
    truncateLoop markers file = file := by
  induction markers with
  | nil => rfl
  | cons t rest ih =>
    unfold truncateLoop
    have ht : Index file t = -1 :=
      (indexChars_eq_neg_one_iff _ _).mpr (h t (List.mem_cons_self _ _))
    simp only [ht, ne_eq, not_true_eq_false, if_false]
    exact ih (fun x hx => h x (List.mem_cons_of_mem _ hx))

/-- C8, amended: when `m` is the first marker of the sequence that occurs in the path
(no marker before it occurs), the recorded path is what the markers after `m` make of
the text after the first occurrence of `m`, each of them that occurs in the shortened
path shortening it further; it is that text itself when none of the later markers occurs
in it. -/
theorem first_marker_cuts_then_later_apply (before after : List String) (m : String)
    (path : String)
    (hbefore : ∀ x ∈ before, occursIn x.data path.data = false)
    (hm : occursIn m.data path.data = true) :
    applyTruncations (some (before ++ m :: after)) path =
      applyTruncations (some after) ⟨textAfterFirst m.data path.data⟩ ∧
    ((∀ x ∈ after, occursIn x.data (textAfterFirst m.data path.data) = false) →
      applyTruncations (some (before ++ m :: after)) path =
        ⟨textAfterFirst m.data path.data⟩) := by
  have hmain : applyTruncations (some (before ++ m :: after)) path =
      applyTruncations (some after) ⟨textAfterFirst m.data path.data⟩ := by
    simp only [applyTruncations]
    rw [truncateLoop_eq_foldMarkers, truncateLoop_eq_foldMarkers]
    unfold foldMarkers
    rw [List.foldl_append, List.foldl_cons]
    have hpre : List.foldl markerStep path before = path := by
      have h1 := truncateLoop_of_none_occurs before path hbefore
      rw [truncateLoop_eq_foldMarkers] at h1
      exact h1
    rw [hpre]
    simp [markerStep, hm]
  refine ⟨hmain, ?_⟩
  intro hafter
  rw [hmain]
  simp only [applyTruncations]
  exact truncateLoop_of_none_occurs after _ hafter

theorem first_marker_cuts_then_later_apply_witness :
    (∀ x ∈ ["/opt/"], occursIn x.data "/home/x/src/app/main.go".data = false) ∧
    (occursIn "/src/".data "/home/x/src/app/main.go".data = true) ∧
    applyTruncations (some (["/opt/"] ++ "/src/" :: ["app/"])) "/home/x/src/app/main.go" =
      applyTruncations (some ["app/"])
        ⟨textAfterFirst "/src/".data "/home/x/src/app/main.go".data⟩ :=
  ⟨by decide, by decide,
    (first_marker_cuts_then_later_apply ["/opt/"] ["app/"] "/src/"
      "/home/x/src/app/main.go" (by decide) (by decide)).1⟩

/-! ## The call-site field -/

/-- In `output`, `runtime.Caller(2)` is the third frame of the stack: the caller of the
function that called `output`. -/
theorem runtimeCaller_third (f0 f1 f2 : Frame) (rest : List Frame) :
    runtimeCaller (f0 :: f1 :: f2 :: rest) 2 = (f2.file, f2.line, true) := by
  simp [runtimeCaller]

/-- The call-site text of `output` is built from the third frame of its stack. -/
theorem callSite_third (env : Env) (f1 f2 : Frame) (rest : List Frame) :
    callSite (⟨env.coreFile, 90⟩ :: f1 :: f2 :: rest) =
      Base f2.file ++ ":" ++ Itoa f2.line := by
  simp [callSite, runtimeCaller]

/-- C9: for every call of Debug or Info that passes the threshold (on a non-nil field
mapping), with the call stack as the list of active frames, the record handed to the
encoder has as call-site field `<base name of file>:<line>` of the frame `caller` that
called Debug or Info, the frame two levels above `output`, and not a frame of Debug, Info
or `output`. The names of the three fields written after it differ from `file`. -/
theorem debug_info_callSite_is_caller (env : Env) (G : Globals) (caller : Frame)
    (rest : List Frame) (logger : Logger) (logType : String) (args : List Value)
    (entries : Entries)
    (h1 : env.std.LogFieldLevel ≠ LogFilePath)
    (h2 : env.std.LogFieldTime ≠ LogFilePath)
    (h3 : env.std.LogFieldType ≠ LogFilePath)
    (hdata : buildLogData args = some entries) :
    ((if logger.level = 0 then G.globalLevelType else logger.level) ≤ DEBUG →
      Debug env G (caller :: rest) logger logType args =
        emit env logger (outputRecord env
          (⟨env.coreFile, 90⟩ :: ⟨env.coreFile, 50⟩ :: caller :: rest)
          DEBUG logType entries) ∧
      runtimeCaller (⟨env.coreFile, 90⟩ :: ⟨env.coreFile, 50⟩ :: caller :: rest) 2 =
        (caller.file, caller.line, true) ∧
      entriesGet (outputRecord env
          (⟨env.coreFile, 90⟩ :: ⟨env.coreFile, 50⟩ :: caller :: rest)
          DEBUG logType entries) LogFilePath =
        some (Value.str (Base caller.file ++ ":" ++ Itoa caller.line))) ∧
    ((if logger.level = 0 then G.globalLevelType else logger.level) ≤ INFO →
      Info env G (caller :: rest) logger logType args =
        emit env logger (outputRecord env
          (⟨env.coreFile, 90⟩ :: ⟨env.coreFile, 54⟩ :: caller :: rest)
          INFO logType entries) ∧
      runtimeCaller (⟨env.coreFile, 90⟩ :: ⟨env.coreFile, 54⟩ :: caller :: rest) 2 =
        (caller.file, caller.line, true) ∧
      entriesGet (outputRecord env
          (⟨env.coreFile, 90⟩ :: ⟨env.coreFile, 54⟩ :: caller :: rest)
          INFO logType entries) LogFilePath =
        some (Value.str (Base caller.file ++ ":" ++ Itoa caller.line))) := by
  constructor
  · intro hp
    refine ⟨?_, runtimeCaller_third _ _ _ _, ?_⟩
    · unfold Debug
      rw [hdata]
      exact output_of_pass env G _ logger DEBUG logType entries hp
    · rw [outputRecord_file env _ DEBUG logType entries h1 h2 h3, callSite_third]
  · intro hp
    refine ⟨?_, runtimeCaller_third _ _ _ _, ?_⟩
    · unfold Info
      rw [hdata]
      exact output_of_pass env G _ logger INFO logType entries hp
    · rw [outputRecord_file env _ INFO logType entries h1 h2 h3, callSite_third]

theorem debug_info_callSite_is_caller_witness :
    (sampleEnv.std.LogFieldLevel ≠ LogFilePath) ∧
    (sampleEnv.std.LogFieldTime ≠ LogFilePath) ∧
    (sampleEnv.std.LogFieldType ≠ LogFilePath) ∧
    (buildLogData [Value.str "port", Value.int 80] = some [("port", Value.int 80)]) ∧
    ((if (⟨0, none, none⟩ : Logger).level = 0 then initialGlobals.globalLevelType
        else (⟨0, none, none⟩ : Logger).level) ≤ INFO) ∧
    entriesGet (outputRecord sampleEnv
        (⟨sampleEnv.coreFile, 90⟩ :: ⟨sampleEnv.coreFile, 54⟩ ::
          (⟨"/home/x/src/app/main.go", 7⟩ : Frame) :: [])
        INFO "start" [("port", Value.int 80)]) LogFilePath =
      some (Value.str (Base (⟨"/home/x/src/app/main.go", 7⟩ : Frame).file ++ ":" ++
        Itoa (⟨"/home/x/src/app/main.go", 7⟩ : Frame).line)) ∧
    Base "/home/x/src/app/main.go" ++ ":" ++ Itoa 7 = "main.go:7" :=
  ⟨by decide, by decide, by decide, rfl, by decide,
    ((debug_info_callSite_is_caller sampleEnv initialGlobals ⟨"/home/x/src/app/main.go", 7⟩
      [] ⟨0, none, none⟩ "start" [Value.str "port", Value.int 80] [("port", Value.int 80)]
      (by decide) (by decide) (by decide) rfl).2 (by decide)).2.2,
    by decide⟩

/-- C10: for every Warning, Error or LogRequest call that passes the threshold (on a
non-nil field mapping), with the call stack as the list of active frames, the call-site
field of the record handed to the encoder is the location of the frame two levels above
`output`: the logger's own Warning (line 58), Error (line 62) or LogRequest (line 191)
method, reached through `trace` or `log`, whatever the application frames `callers` that
called the method are. The names of the three fields written after it differ from
`file`. -/
theorem traced_and_request_callSite_is_core (env : Env) (G : Globals)
    (callers : List Frame) (logger : Logger) (logType : String) (args : List Value)
    (entries : Entries) (a : RequestArgs) (extraInfo : GoMap)
    (h1 : env.std.LogFieldLevel ≠ LogFilePath)
    (h2 : env.std.LogFieldTime ≠ LogFilePath)
    (h3 : env.std.LogFieldType ≠ LogFilePath)
    (hdata : buildLogData args = some entries) :
    ((if logger.level = 0 then G.globalLevelType else logger.level) ≤ WARNING →
      ∃ record, Warning env G callers logger logType args = emit env logger record ∧
        record = outputRecord env
          (⟨env.coreFile, 90⟩ :: ⟨env.coreFile, 147⟩ :: ⟨env.coreFile, 58⟩ :: callers)
          WARNING logType (entriesSet entries env.std.LogFieldTraces (Value.str (Join
            (traceEntries (⟨env.coreFile, 126⟩ :: ⟨env.coreFile, 58⟩ :: callers)
              logger.truncations) "; "))) ∧
        entriesGet record LogFilePath =
          some (Value.str (Base env.coreFile ++ ":" ++ Itoa 58))) ∧
    ((if logger.level = 0 then G.globalLevelType else logger.level) ≤ ERROR →
      ∃ record, Error env G callers logger logType args = emit env logger record ∧
        record = outputRecord env
          (⟨env.coreFile, 90⟩ :: ⟨env.coreFile, 147⟩ :: ⟨env.coreFile, 62⟩ :: callers)
          ERROR logType (entriesSet entries env.std.LogFieldTraces (Value.str (Join
            (traceEntries (⟨env.coreFile, 126⟩ :: ⟨env.coreFile, 62⟩ :: callers)
              logger.truncations) "; "))) ∧
        entriesGet record LogFilePath =
          some (Value.str (Base env.coreFile ++ ":" ++ Itoa 62))) ∧
    ((if logger.level = 0 then G.globalLevelType else logger.level) ≤ INFO →
      ∃ record, LogRequest env G callers logger a extraInfo = emit env logger record ∧
        record = outputRecord env
          (⟨env.coreFile, 90⟩ :: ⟨env.coreFile, 66⟩ :: ⟨env.coreFile, 191⟩ :: callers)
          INFO env.std.LogTypeRequest (requestRecord env.std a extraInfo) ∧
        entriesGet record LogFilePath =
          some (Value.str (Base env.coreFile ++ ":" ++ Itoa 191))) := by
  refine ⟨?_, ?_, ?_⟩
  · intro hp
    refine ⟨_, ?_, rfl, ?_⟩
    · unfold Warning trace
      rw [hdata]
      exact output_of_pass env G _ logger WARNING logType _ hp
    · rw [outputRecord_file env _ WARNING logType _ h1 h2 h3, callSite_third]
  · intro hp
    refine ⟨_, ?_, rfl, ?_⟩
    · unfold Error trace
      rw [hdata]
      exact output_of_pass env G _ logger ERROR logType _ hp
    · rw [outputRecord_file env _ ERROR logType _ h1 h2 h3, callSite_third]
  · intro hp
    refine ⟨_, ?_, rfl, ?_⟩
    · unfold LogRequest log
      exact output_of_pass env G _ logger INFO _ _ hp
    · rw [outputRecord_file env _ INFO _ _ h1 h2 h3, callSite_third]

theorem traced_and_request_callSite_is_core_witness :
    (sampleEnv.std.LogFieldLevel ≠ LogFilePath) ∧
    (sampleEnv.std.LogFieldTime ≠ LogFilePath) ∧
    (sampleEnv.std.LogFieldType ≠ LogFilePath) ∧
    (buildLogData [Value.str "port", Value.int 80] = some [("port", Value.int 80)]) ∧
    ((if (⟨0, none, none⟩ : Logger).level = 0 then initialGlobals.globalLevelType
        else (⟨0, none, none⟩ : Logger).level) ≤ WARNING) ∧
    (∃ record, Warning sampleEnv initialGlobals [⟨"/home/x/src/app/main.go", 7⟩]
        ⟨0, none, none⟩ "disk" [Value.str "port", Value.int 80] =
          emit sampleEnv ⟨0, none, none⟩ record ∧
      record = outputRecord sampleEnv
        (⟨sampleEnv.coreFile, 90⟩ :: ⟨sampleEnv.coreFile, 147⟩ ::
          ⟨sampleEnv.coreFile, 58⟩ :: [⟨"/home/x/src/app/main.go", 7⟩])
        WARNING "disk" (entriesSet [("port", Value.int 80)] sampleEnv.std.LogFieldTraces
          (Value.str (Join (traceEntries
            (⟨sampleEnv.coreFile, 126⟩ :: ⟨sampleEnv.coreFile, 58⟩ ::
              [⟨"/home/x/src/app/main.go", 7⟩])
            (⟨0, none, none⟩ : Logger).truncations) "; "))) ∧
      entriesGet record LogFilePath =
        some (Value.str (Base sampleEnv.coreFile ++ ":" ++ Itoa 58))) ∧
    Base sampleEnv.coreFile ++ ":" ++ Itoa 58 = "Logger.go:58" :=
  ⟨by decide, by decide, by decide, rfl, by decide,
    (traced_and_request_callSite_is_core sampleEnv initialGlobals
      [⟨"/home/x/src/app/main.go", 7⟩] ⟨0, none, none⟩ "disk"
      [Value.str "port", Value.int 80] [("port", Value.int 80)] sampleRequest none
      (by decide) (by decide) (by decide) rfl).1 (by decide),
    by decide⟩

end Log
